import Mathlib

/-!
Shallow embedding of the InfluxDB v1 data-cleaning engine
(`src/influx_cleaner.py` and `src/cleaner_core.py`).

Result rows returned by the store client are modelled as association lists
from column name to a value that is either numeric or a string (Python
`int`/`float` versus `str`; the exact numeric type does not matter for the
verified properties, so numerics are modelled as `Int`).  Store interaction
is modelled by an environment (`Store`) of oracles describing what the
external InfluxDB client returns together with an explicit trace of the
store calls the code issues (`Ev`), so that ordering properties
("backup happens before delete") and absence properties ("no store call is
made") can be stated about program order.
-/

namespace InfluxCleaner

/-- A value in a result row: numeric (Python `int`/`float`) or string. -/
inductive Val where
  | num (n : Int)
  | str (s : String)
deriving DecidableEq

/-- A result row, as yielded by `result.get_points()`: an ordered mapping
from column name to value. -/
abbrev Row := List (String × Val)

/-- `sum(v for v in row.values() if isinstance(v, (int, float)))` — the
numeric-only summation used by both inventory variants
(`influx_cleaner.py` lines 132 and 224). -/
def sumNumericValues : Row → Int
  | [] => 0
  | (_, Val.num n) :: rest => n + sumNumericValues rest
  | (_, Val.str _) :: rest => sumNumericValues rest

/-- The sum of exactly the numeric-valued columns of a row (specification
side of claim C5). -/
def numericColumnsSum (row : Row) : Int :=
  (row.filterMap (fun kv =>
    match kv.2 with
    | Val.num n => some n
    | Val.str _ => none)).sum

/-- `InfluxDBAnalyzer.analyze_measurement` (lines 219-224): the
`total_points` value computed from the COUNT(*) result rows.  It starts at
0 and, when the result is non-empty, becomes the numeric-only sum of the
first row's values. -/
def analyzeMeasurementTotalPoints (points : List Row) : Int :=
  match points with
  | [] => 0
  | p :: _ => sumNumericValues p

/-- `InfluxDBAnalyzer._get_basic_measurement_info` (lines 127-132): the
`total_points` value of the fast inventory variant, computed the same way
from the COUNT(*) result rows. -/
def basicInfoTotalPoints (points : List Row) : Int :=
  match points with
  | [] => 0
  | p :: _ => sumNumericValues p

/-- Python substring containment `needle in hay` on character lists. -/
def containsSub (hay needle : List Char) : Bool :=
  (List.range (hay.length + 1)).any (fun i => needle.isPrefixOf (hay.drop i))

/-- `field.lower()` as a character list (ASCII lowering, which is what the
field and measurement names in this code use). -/
def lowerChars (s : String) : List Char :=
  s.data.map Char.toLower

/-- `keyword in field.lower()` for one keyword. -/
def containsKeyword (field : String) (kw : String) : Bool :=
  containsSub (lowerChars field) kw.data

/-- Keywords selecting SUM in `aggregate_old_data` (line 356). -/
def sumSelectKeywords : List String := ["count", "total", "sum"]

/-- Keywords selecting MAX in `aggregate_old_data` (line 358). -/
def maxSelectKeywords : List String := ["max", "peak", "highest"]

/-- Keywords selecting MIN in `aggregate_old_data` (line 360). -/
def minSelectKeywords : List String := ["min", "lowest"]

/-- The per-field reducer chosen by `InfluxDBCleaner.aggregate_old_data`
(lines 353-364) from the field name alone. -/
def fieldReducer (field : String) : String :=
  if sumSelectKeywords.any (containsKeyword field) then "SUM"
  else if maxSelectKeywords.any (containsKeyword field) then "MAX"
  else if minSelectKeywords.any (containsKeyword field) then "MIN"
  else "MEAN"

/-- The aggregation clause built for one field, e.g. `SUM("f") AS "f"`
(lines 357, 359, 361, 364). -/
def fieldAggregationClause (field : String) : String :=
  fieldReducer field ++ "(\"" ++ field ++ "\") AS \"" ++ field ++ "\""

/-- The granularity table of `aggregate_old_data` (lines 333-338). -/
def aggregationIntervals : List (String × String) :=
  [("hourly", "1h"), ("daily", "1d"), ("weekly", "1w"), ("monthly", "30d")]

/-- `name.lower().replace('_', '').replace('-', '')` from
`InfluxDBAnalyzer._measurements_similar` (lines 301-302). -/
def normalizeName (s : String) : List Char :=
  (s.data.map Char.toLower).filter (fun c => !(c == '_') && !(c == '-'))

/-- `len(set(clean1) & set(clean2))` — size of the character-set overlap. -/
def charOverlapCount (c1 c2 : List Char) : Nat :=
  (c1.toFinset ∩ c2.toFinset).card

/-- `InfluxDBAnalyzer._measurements_similar` (lines 298-308).  The float
comparison `overlap / max(len1, len2) > 0.7` is rendered over the integers
as `10 * overlap > 7 * max len1 len2`. -/
def measurements_similar (name1 name2 : String) : Bool :=
  let clean1 := normalizeName name1
  let clean2 := normalizeName name2
  if clean1.length > 3 && clean2.length > 3 then
    containsSub clean2 clean1 || containsSub clean1 clean2 ||
      decide (10 * charOverlapCount clean1 clean2 > 7 * max clean1.length clean2.length)
  else false

/-- The per-measurement analysis dictionary built by the inventory
functions of `influx_cleaner.py`. -/
structure Analysis where
  name : String
  total_points : Int
  time_range : Option (String × String)
  fields : List String
  tags : List (String × List String)
  sample_data : List Row
  last_entry : String
deriving DecidableEq

/-- `InfluxDBAnalyzer._create_empty_analysis` (lines 194-204). -/
def create_empty_analysis (measurement : String) : Analysis :=
  { name := measurement
    total_points := 0
    time_range := none
    fields := []
    tags := []
    sample_data := []
    last_entry := "Error" }

/-- One store-client call, recorded in program order. -/
inductive Ev where
  /-- `SHOW MEASUREMENTS`. -/
  | showMeasurements
  /-- A `SELECT COUNT(*)` query against a measurement name. -/
  | countQuery (m : String)
  /-- `SELECT * FROM "m"` (the read step of backup and merge). -/
  | queryAll (m : String)
  /-- The backup-file write of `backup_measurement`, with the number of
  rows exported and whether the write succeeded. -/
  | backupWrite (m : String) (rows : Nat) (ok : Bool)
  /-- `DROP MEASUREMENT "m"`. -/
  | drop (m : String)
  /-- `client.write_points` of transformed points into a target. -/
  | writePoints (target : String) (count : Nat)
  /-- `SHOW FIELD KEYS FROM "m"`. -/
  | showFieldKeys (m : String)
  /-- The `SELECT ... INTO "aggName" ...` aggregation write, carrying the
  per-field aggregation clauses that were built. -/
  | aggregationWrite (aggName : String) (clauses : List String)
  /-- `DELETE FROM "m" WHERE time < cutoff`. -/
  | deleteOld (m : String)
deriving DecidableEq

/-- The environment: what the external InfluxDB client returns for each
kind of query, plus whether fallible external steps succeed.  All oracles
are keyed by measurement name, matching the queries the code builds. -/
structure Store where
  /-- Result of `SHOW MEASUREMENTS`. -/
  measurements : List String
  /-- The values of the first `SELECT COUNT(*)` result row used by
  `clean_low_data_measurements` (`none` when the result has no rows). -/
  countVals : String → Option (List Int)
  /-- Result rows of `SELECT * FROM "m"`. -/
  rows : String → List Row
  /-- Whether `SELECT * FROM "m"` succeeds (a raised query exception is
  `false`). -/
  queryOk : String → Bool
  /-- Whether writing the backup file for a measurement succeeds. -/
  writeFileOk : String → Bool
  /-- Whether `DROP MEASUREMENT "m"` succeeds. -/
  dropOk : String → Bool
  /-- Field keys returned by `SHOW FIELD KEYS FROM "m"`. -/
  fieldKeys : String → List String
  /-- The numeric-only summed COUNT(*) of a measurement older than the
  cutoff, as computed in `filter_and_clean_by_age` (lines 418-420). -/
  oldCount : String → Nat
  /-- The numeric-only summed COUNT(*) of a (aggregated) measurement, as
  computed in `aggregate_old_data` (lines 381-384). -/
  aggCount : String → Nat
  /-- Whether `client.write_points` of the batch built from a source
  measurement into a target measurement succeeds (a raised write exception
  is `false`); keyed by target then source. -/
  writePointsOk : String → String → Bool

/-- Whether `InfluxDBCleaner.backup_measurement` succeeds: both its query
and its file write must not raise. -/
def backupSuccess (st : Store) (m : String) : Bool :=
  st.queryOk m && st.writeFileOk m

/-- `InfluxDBCleaner.backup_measurement` (lines 25-52): query all rows of
the measurement, then write the export artifact; any exception yields
`False`.  Returns the success flag and the trace of store calls. -/
def backup_measurement (st : Store) (m : String) : Bool × List Ev :=
  if st.queryOk m then
    (st.writeFileOk m, [Ev.queryAll m, Ev.backupWrite m (st.rows m).length (st.writeFileOk m)])
  else
    (false, [Ev.queryAll m])

/-- `InfluxDBCleaner.delete_measurement` (lines 54-68): without the
confirmation flag it refuses immediately and issues no store call;
with it, it issues the drop and reports whether the drop succeeded. -/
def delete_measurement (st : Store) (m : String) (confirm : Bool) : Bool × List Ev :=
  if confirm then (st.dropOk m, [Ev.drop m]) else (false, [])

/-- A point prepared for insertion by merge/split/rename: target
measurement, `time` value, fields, and tags. -/
structure NewPoint where
  measurement : String
  time : Option Val
  fields : List (String × Val)
  tags : List (String × Val)
deriving DecidableEq

/-- The per-row transformation of `merge_measurements` (lines 93-115):
fields are all columns except `time` and `tag_`-prefixed ones, tags come
from the tag mapping plus the `source_measurement` marker. -/
def mergeTransform (target source : String) (tagMapping : List (String × String))
    (p : Row) : NewPoint :=
  { measurement := target
    time := (p.lookup "time")
    fields := p.filter (fun kv => !(kv.1 == "time") && !(kv.1.startsWith "tag_"))
    tags := (tagMapping.filterMap
              (fun kv => (p.lookup kv.1).map (fun v => (kv.2, v))))
            ++ [("source_measurement", Val.str source)] }

/-- The per-source loop of `merge_measurements` (lines 81-121): query the
source, skip it when it has no rows, otherwise write the transformed batch
to the target; a query or write exception aborts the loop with `False`
(caught at lines 126-128). -/
def mergeLoop (st : Store) (target : String) (tagMapping : List (String × String)) :
    List String → Bool × List Ev
  | [] => (true, [])
  | source :: rest =>
    if st.queryOk source then
      let pts := st.rows source
      if pts.isEmpty then
        let r := mergeLoop st target tagMapping rest
        (r.1, Ev.queryAll source :: r.2)
      else if st.writePointsOk target source then
        let r := mergeLoop st target tagMapping rest
        (r.1, Ev.queryAll source ::
          Ev.writePoints target (pts.map (mergeTransform target source tagMapping)).length
            :: r.2)
      else
        (false, [Ev.queryAll source,
          Ev.writePoints target (pts.map (mergeTransform target source tagMapping)).length])
    else
      (false, [Ev.queryAll source])

/-- `InfluxDBCleaner.merge_measurements` (lines 70-128): only an empty
source list is rejected up front; otherwise each source is processed in
turn. -/
def merge_measurements (st : Store) (sources : List String) (target : String)
    (tagMapping : List (String × String)) : Bool × List Ev :=
  if sources.isEmpty then (false, [])
  else mergeLoop st target tagMapping sources

/-- The per-measurement body of `clean_low_data_measurements`
(lines 162-184): count the points; when the count is below the threshold,
`delete` backs up and then deletes (skipping the delete and recording
`False` when the backup fails), `backup_only` just backs up, and any other
action records nothing for the measurement. -/
def cleanLowDataStep (st : Store) (minPoints : Int) (action : String) (m : String) :
    List (String × Bool) × List Ev :=
  match st.countVals m with
  | none => ([], [Ev.countQuery m])
  | some vals =>
    if vals.sum < minPoints then
      if action = "delete" then
        let b := backup_measurement st m
        if b.1 then
          let d := delete_measurement st m true
          ([(m, d.1)], Ev.countQuery m :: (b.2 ++ d.2))
        else
          ([(m, false)], Ev.countQuery m :: b.2)
      else if action = "backup_only" then
        let b := backup_measurement st m
        ([(m, b.1)], Ev.countQuery m :: b.2)
      else ([], [Ev.countQuery m])
    else ([], [Ev.countQuery m])

/-- `InfluxDBCleaner.clean_low_data_measurements` (lines 153-189): list
the measurements and run the per-measurement body over each, accumulating
the result map and the store-call trace. -/
def clean_low_data_measurements (st : Store) (minPoints : Int) (action : String) :
    List (String × Bool) × List Ev :=
  st.measurements.foldl
    (fun acc m =>
      let s := cleanLowDataStep st minPoints action m
      (acc.1 ++ s.1, acc.2 ++ s.2))
    ([], [Ev.showMeasurements])

/-- `InfluxDBCleaner.aggregate_old_data` (lines 312-401): backup, resolve
the field list, validate the granularity, run the aggregation write, count
the aggregated output, and only on a non-zero count delete the original
old rows.  An empty `fields` argument models Python's `fields=None`
default (both are falsy and trigger field discovery). -/
def aggregate_old_data (st : Store) (m : String) (aggregation : String)
    (fields : List String) : Bool × List Ev :=
  let b := backup_measurement st m
  if b.1 = false then (false, b.2)
  else
    let discovery : List String × List Ev :=
      if fields.isEmpty then (st.fieldKeys m, [Ev.showFieldKeys m]) else (fields, [])
    let flds := discovery.1
    let tr0 := b.2 ++ discovery.2
    if flds.isEmpty then (false, tr0)
    else if (aggregationIntervals.lookup aggregation).isNone then (false, tr0)
    else
      let aggName := m ++ "_agg_" ++ aggregation
      let tr1 := tr0 ++ [Ev.aggregationWrite aggName (flds.map fieldAggregationClause),
                         Ev.countQuery aggName]
      if st.aggCount aggName > 0 then (true, tr1 ++ [Ev.deleteOld m])
      else (false, tr1)

/-- The density-based granularity selection of `filter_and_clean_by_age`
(lines 431-438). -/
def selectAggregation (oldCount : Nat) : String :=
  if oldCount > 50000 then "monthly"
  else if oldCount > 10000 then "weekly"
  else if oldCount > 1000 then "daily"
  else "hourly"

/-- The per-measurement body of `filter_and_clean_by_age` (lines 412-459):
count the old rows; zero is a success no-op; `aggregate` delegates to
`aggregate_old_data` with the density-selected granularity; `delete`
backs up and then deletes the old rows; any other action records
failure.  Returns the success flag recorded for the measurement and the
trace of store calls. -/
def filterCleanBody (st : Store) (action : String) (m : String) : Bool × List Ev :=
  let c := st.oldCount m
  if c = 0 then (true, [Ev.countQuery m])
  else if action = "aggregate" then
    let r := aggregate_old_data st m (selectAggregation c) []
    (r.1, Ev.countQuery m :: r.2)
  else if action = "delete" then
    let b := backup_measurement st m
    if b.1 then (true, Ev.countQuery m :: (b.2 ++ [Ev.deleteOld m]))
    else (false, Ev.countQuery m :: b.2)
  else (false, [Ev.countQuery m])

/-- The result-map entry and trace contributed by one measurement in
`filter_and_clean_by_age`. -/
def filterCleanStep (st : Store) (action : String) (m : String) :
    (String × Bool) × List Ev :=
  ((m, (filterCleanBody st action m).1), (filterCleanBody st action m).2)

/-- `InfluxDBCleaner.filter_and_clean_by_age` (lines 403-461). -/
def filter_and_clean_by_age (st : Store) (measurements : List String) (action : String) :
    List (String × Bool) × List Ev :=
  measurements.foldl
    (fun acc m =>
      let s := filterCleanStep st action m
      (acc.1 ++ [s.1], acc.2 ++ s.2))
    ([], [])

/-- The partial result of `_get_basic_measurement_info`. -/
structure BasicInfo where
  total_points : Int
  fields : List String
  tags : List (String × List String)
deriving DecidableEq

/-- The partial result of `_get_sample_data_fast`. -/
structure SampleInfo where
  sample_data : List Row
  time_range : Option (String × String)
  last_entry : String
deriving DecidableEq

/-- The environment of the fast inventory: what each store query of
`analyze_measurement_fast` returns and whether it raises, plus the
timestamp library calls (`datetime.fromisoformat` returning `none` on a
parse error, `.strftime` and `.isoformat` rendering an instant), modelled
as oracles keyed by measurement name. -/
structure AnalyzerEnv where
  /-- Whether `SELECT COUNT(*) FROM "m" LIMIT 1` succeeds. -/
  countOk : String → Bool
  /-- Its result rows when it succeeds. -/
  countPoints : String → List Row
  /-- Whether `SHOW FIELD KEYS FROM "m"` succeeds. -/
  fieldKeysOk : String → Bool
  fieldKeys : String → List String
  /-- Whether `SHOW TAG KEYS FROM "m"` succeeds. -/
  tagKeysOk : String → Bool
  tagKeys : String → List String
  /-- Whether `SHOW TAG VALUES FROM "m" WITH KEY = "k" LIMIT 10`
  succeeds. -/
  tagValuesOk : String → String → Bool
  tagValues : String → String → List String
  /-- Whether `SELECT * FROM "m" ORDER BY time DESC LIMIT 3` succeeds. -/
  sampleOk : String → Bool
  samplePoints : String → List Row
  /-- `datetime.fromisoformat` on a time string: `none` when it raises. -/
  parseTime : String → Option Int
  /-- `.strftime` of an instant (used for `last_entry`). -/
  fmtTimestamp : Int → String
  /-- `.isoformat` of an instant (used for `time_range`). -/
  isoTimestamp : Int → String

/-- The tag-value loop of `_get_basic_measurement_info` (lines 143-145):
keys are processed in order; the first raising query aborts the loop,
keeping the entries already stored. -/
def tagValuesLoop (env : AnalyzerEnv) (m : String) : List String → List (String × List String)
  | [] => []
  | k :: rest =>
    if env.tagValuesOk m k then (k, env.tagValues m k) :: tagValuesLoop env m rest
    else []

/-- `InfluxDBAnalyzer._get_basic_measurement_info` (lines 118-153): count,
field keys, tag keys and tag values are fetched in order inside a single
`try`; the first raising query jumps to the handler, which returns the
info filled in so far — a fetch failure is caught here, never
propagated. -/
def get_basic_measurement_info (env : AnalyzerEnv) (m : String) : BasicInfo :=
  if env.countOk m = false then { total_points := 0, fields := [], tags := [] }
  else
    let total := basicInfoTotalPoints (env.countPoints m)
    if env.fieldKeysOk m = false then { total_points := total, fields := [], tags := [] }
    else
      let flds := env.fieldKeys m
      if env.tagKeysOk m = false then { total_points := total, fields := flds, tags := [] }
      else
        let tkeys := env.tagKeys m
        if tkeys.length ≤ 5 then
          { total_points := total, fields := flds, tags := tagValuesLoop env m tkeys }
        else
          { total_points := total, fields := flds, tags := tkeys.map (fun k => (k, [])) }

/-- `InfluxDBAnalyzer._get_sample_data_fast` (lines 155-192): a raising
sample query is caught and the defaults (empty sample, no range, the
sentinel `No data`) are returned; otherwise the times of the sample rows
are parsed (rows whose `time` is missing, non-string or unparsable are
skipped) and the range and `last_entry` derive from them. -/
def get_sample_data_fast (env : AnalyzerEnv) (m : String) : SampleInfo :=
  if env.sampleOk m = false then
    { sample_data := [], time_range := none, last_entry := "No data" }
  else
    let pts := env.samplePoints m
    if pts.isEmpty then
      { sample_data := [], time_range := none, last_entry := "No data" }
    else
      let times := pts.filterMap (fun p =>
        match p.lookup "time" with
        | some (Val.str s) => env.parseTime s
        | _ => none)
      match times with
      | [] => { sample_data := pts, time_range := none, last_entry := "No data" }
      | t :: ts =>
        { sample_data := pts
          time_range := some (env.isoTimestamp (ts.foldl min t),
                              env.isoTimestamp (ts.foldl max t))
          last_entry := env.fmtTimestamp (ts.foldl max t) }

/-- `InfluxDBAnalyzer.analyze_measurement_fast` (lines 83-116): both
helpers catch their own query exceptions, so the function returns
normally on every fetch failure (the fallback to `analyze_measurement`
at line 114 is unreachable from a query exception) and the initial
dictionary's `No data` default persists when sampling fails. -/
def analyze_measurement_fast (env : AnalyzerEnv) (m : String) : Analysis :=
  { name := m
    total_points := (get_basic_measurement_info env m).total_points
    time_range := (get_sample_data_fast env m).time_range
    fields := (get_basic_measurement_info env m).fields
    tags := (get_basic_measurement_info env m).tags
    sample_data := (get_sample_data_fast env m).sample_data
    last_entry := (get_sample_data_fast env m).last_entry }

/-- `InfluxDBAnalyzer.analyze_measurements_parallel` (lines 59-81): the
final result map keyed by measurement name.  Each task runs
`analyze_measurement_fast` and contributes exactly the entry for its own
name; the dictionary is filled in completion order, which only permutes
insertions of distinct keys, so the mapping is modelled in submission
order.  The collector's handler (lines 77-79) would install
`create_empty_analysis` for a task whose `future.result()` raises, but
the task catches fetch failures itself and returns normally on them. -/
def analyze_measurements_parallel (env : AnalyzerEnv) (ms : List String) :
    List (String × Analysis) :=
  ms.map (fun m => (m, analyze_measurement_fast env m))

/-- Ordering discipline on a trace: every drop of a measurement is
preceded, strictly earlier in program order, by a successful backup write
of the same measurement. -/
def dropAfterBackup (tr : List Ev) : Prop :=
  ∀ (i : Nat) (m : String), tr[i]? = some (Ev.drop m) →
    ∃ (j : Nat) (c : Nat), j < i ∧ tr[j]? = some (Ev.backupWrite m c true)

/-- A concrete store environment used to evaluate the model on concrete
inputs: measurement `m1` has a failing backup query, a below-threshold
point count and 5000 old rows; source `a` holds one row and its write
succeeds; every aggregation output is empty. -/
def wStore : Store where
  measurements := ["m1", "m2"]
  countVals := fun m => if m = "m1" then some [3] else some [100]
  rows := fun m =>
    if m = "a" then [[("time", Val.str "t1"), ("value", Val.num 1)]] else []
  queryOk := fun m => !(m == "m1")
  writeFileOk := fun _ => true
  dropOk := fun _ => true
  fieldKeys := fun _ => ["f1"]
  oldCount := fun m => if m = "m1" then 5000 else 0
  aggCount := fun _ => 0
  writePointsOk := fun _ _ => true

/-- A concrete store environment in which every backup succeeds, so that
clean-low-data actually issues a drop for its below-threshold
measurement `m1`. -/
def wStore2 : Store where
  measurements := ["m1"]
  countVals := fun _ => some [3]
  rows := fun _ => [[("time", Val.str "t1"), ("value", Val.num 1)]]
  queryOk := fun _ => true
  writeFileOk := fun _ => true
  dropOk := fun _ => true
  fieldKeys := fun _ => ["f1"]
  oldCount := fun _ => 0
  aggCount := fun _ => 0
  writePointsOk := fun _ _ => true

/-- A concrete fast-inventory environment: every query against `m1`
raises (a total fetch failure), while `m2` answers its count and metadata
queries and has no sample rows. -/
def wAnalyzerEnv : AnalyzerEnv where
  countOk := fun m => !(m == "m1")
  countPoints := fun m =>
    if m = "m2" then [[("time", Val.str "1970-01-01T00:00:00Z"), ("count_value", Val.num 7)]]
    else []
  fieldKeysOk := fun m => !(m == "m1")
  fieldKeys := fun m => if m = "m2" then ["f1"] else []
  tagKeysOk := fun m => !(m == "m1")
  tagKeys := fun _ => []
  tagValuesOk := fun m _ => !(m == "m1")
  tagValues := fun _ _ => []
  sampleOk := fun m => !(m == "m1")
  samplePoints := fun _ => []
  parseTime := fun _ => none
  fmtTimestamp := fun _ => "1970-01-01 00:00:00"
  isoTimestamp := fun _ => "1970-01-01T00:00:00"

/-! Helper lemmas about the accumulation shape of the batch operations and
about traces. -/

theorem clean_fold_eq (st : Store) (minPoints : Int) (action : String) :
    ∀ (ms : List String) (a : List (String × Bool)) (b : List Ev),
      ms.foldl
        (fun acc m =>
          let s := cleanLowDataStep st minPoints action m
          (acc.1 ++ s.1, acc.2 ++ s.2)) (a, b)
      = (a ++ ms.flatMap (fun m => (cleanLowDataStep st minPoints action m).1),
         b ++ ms.flatMap (fun m => (cleanLowDataStep st minPoints action m).2)) := by
  intro ms
  induction ms with
  | nil => intro a b; simp
  | cons hd tl ih =>
    intro a b
    simp only [List.foldl_cons, List.flatMap_cons]
    rw [ih]
    simp [List.append_assoc]

theorem clean_low_data_eq (st : Store) (minPoints : Int) (action : String) :
    clean_low_data_measurements st minPoints action
      = (st.measurements.flatMap (fun m => (cleanLowDataStep st minPoints action m).1),
         Ev.showMeasurements ::
           st.measurements.flatMap (fun m => (cleanLowDataStep st minPoints action m).2)) := by
  unfold clean_low_data_measurements
  rw [clean_fold_eq]
  simp

theorem filter_fold_eq (st : Store) (action : String) :
    ∀ (ms : List String) (a : List (String × Bool)) (b : List Ev),
      ms.foldl
        (fun acc m =>
          let s := filterCleanStep st action m
          (acc.1 ++ [s.1], acc.2 ++ s.2)) (a, b)
      = (a ++ ms.flatMap (fun m => [(filterCleanStep st action m).1]),
         b ++ ms.flatMap (fun m => (filterCleanStep st action m).2)) := by
  intro ms
  induction ms with
  | nil => intro a b; simp
  | cons hd tl ih =>
    intro a b
    simp only [List.foldl_cons, List.flatMap_cons]
    rw [ih]
    simp [List.append_assoc]

theorem filter_and_clean_by_age_eq (st : Store) (ms : List String) (action : String) :
    filter_and_clean_by_age st ms action
      = (ms.flatMap (fun m => [(filterCleanStep st action m).1]),
         ms.flatMap (fun m => (filterCleanStep st action m).2)) := by
  unfold filter_and_clean_by_age
  rw [filter_fold_eq]
  simp

theorem lookup_append_of_ne {β : Type} (m : String) (l1 l2 : List (String × β))
    (h : ∀ p ∈ l1, p.1 ≠ m) :
    List.lookup m (l1 ++ l2) = List.lookup m l2 := by
  induction l1 with
  | nil => simp
  | cons p tl ih =>
    obtain ⟨k, v⟩ := p
    have hk : k ≠ m := h (k, v) (List.mem_cons_self _ _)
    have hbeq : (m == k) = false := beq_eq_false_iff_ne.mpr (fun e => hk e.symm)
    simp only [List.cons_append, List.lookup, hbeq]
    exact ih (fun q hq => h q (List.mem_cons_of_mem _ hq))

theorem lookup_flatMap_key {β : Type} (f : String → List (String × β))
    (hkey : ∀ m p, p ∈ f m → p.1 = m) :
    ∀ (ms : List String) (m : String) (v : β), m ∈ ms → f m = [(m, v)] →
      List.lookup m (ms.flatMap f) = some v := by
  intro ms
  induction ms with
  | nil => intro m v hm _; exact absurd hm (List.not_mem_nil m)
  | cons hd tl ih =>
    intro m v hm hf
    by_cases he : hd = m
    · subst he
      simp only [List.flatMap_cons, hf, List.cons_append]
      simp [List.lookup]
    · have hm' : m ∈ tl := by
        rcases List.mem_cons.mp hm with h | h
        · exact absurd h.symm he
        · exact h
      simp only [List.flatMap_cons]
      rw [lookup_append_of_ne m (f hd) _ (fun p hp => by rw [hkey hd p hp]; exact he)]
      exact ih m v hm' hf

theorem lookup_map_self {β : Type} (g : String → β) :
    ∀ (ms : List String) (m : String), m ∈ ms →
      List.lookup m (ms.map (fun m' => (m', g m'))) = some (g m) := by
  intro ms
  induction ms with
  | nil => intro m hm; exact absurd hm (List.not_mem_nil m)
  | cons hd tl ih =>
    intro m hm
    by_cases he : hd = m
    · subst he
      simp [List.lookup]
    · have hbeq : (m == hd) = false := beq_eq_false_iff_ne.mpr (fun e => he e.symm)
      have hm' : m ∈ tl := by
        rcases List.mem_cons.mp hm with h | h
        · exact absurd h.symm he
        · exact h
      simp only [List.map_cons, List.lookup, hbeq]
      exact ih m hm'

theorem dropAfterBackup_of_no_drop (tr : List Ev) (h : ∀ m, Ev.drop m ∉ tr) :
    dropAfterBackup tr := by
  intro i m hi
  exfalso
  rcases List.getElem?_eq_some.mp hi with ⟨hlt, hg⟩
  exact h m (hg ▸ List.getElem_mem hlt)

theorem dropAfterBackup_append {t1 t2 : List Ev}
    (h1 : dropAfterBackup t1) (h2 : dropAfterBackup t2) :
    dropAfterBackup (t1 ++ t2) := by
  intro i m hi
  by_cases hlt : i < t1.length
  · rw [List.getElem?_append_left hlt] at hi
    obtain ⟨j, c, hj, hjt⟩ := h1 i m hi
    exact ⟨j, c, hj, by rw [List.getElem?_append_left (lt_trans hj hlt)]; exact hjt⟩
  · push_neg at hlt
    rw [List.getElem?_append_right hlt] at hi
    obtain ⟨j, c, hj, hjt⟩ := h2 _ m hi
    refine ⟨j + t1.length, c, by omega, ?_⟩
    rw [List.getElem?_append_right (Nat.le_add_left _ _)]
    simpa using hjt

theorem backup_measurement_fst (st : Store) (m : String) :
    (backup_measurement st m).1 = backupSuccess st m := by
  unfold backup_measurement backupSuccess
  by_cases h : st.queryOk m <;> simp [h]

theorem cleanStep_delete_eq (st : Store) (mp : Int) (m : String) :
    cleanLowDataStep st mp "delete" m =
      match st.countVals m with
      | none => ([], [Ev.countQuery m])
      | some vals =>
        if vals.sum < mp then
          if backupSuccess st m then
            ([(m, st.dropOk m)],
              [Ev.countQuery m, Ev.queryAll m,
               Ev.backupWrite m (st.rows m).length true, Ev.drop m])
          else if st.queryOk m then
            ([(m, false)],
              [Ev.countQuery m, Ev.queryAll m,
               Ev.backupWrite m (st.rows m).length false])
          else ([(m, false)], [Ev.countQuery m, Ev.queryAll m])
        else ([], [Ev.countQuery m]) := by
  unfold cleanLowDataStep
  rcases hcv : st.countVals m with _ | vals
  · rfl
  · by_cases h1 : vals.sum < mp
    · by_cases hq : st.queryOk m
      · by_cases hw : st.writeFileOk m
        · simp [backup_measurement, delete_measurement, backupSuccess, h1, hq, hw]
        · simp [backup_measurement, delete_measurement, backupSuccess, h1, hq, hw]
      · simp [backup_measurement, delete_measurement, backupSuccess, h1, hq]
    · simp [h1]

theorem cleanStep_other_eq (st : Store) (mp : Int) (action m : String)
    (hd : action ≠ "delete") (hb : action ≠ "backup_only") :
    cleanLowDataStep st mp action m = ([], [Ev.countQuery m]) := by
  unfold cleanLowDataStep
  rcases hcv : st.countVals m with _ | vals
  · rfl
  · by_cases h1 : vals.sum < mp
    · simp [h1, hd, hb]
    · simp [h1]

theorem cleanStep_key (st : Store) (mp : Int) (action m : String) :
    ∀ p ∈ (cleanLowDataStep st mp action m).1, p.1 = m := by
  intro p hp
  unfold cleanLowDataStep at hp
  split at hp
  case _ => simp at hp
  case _ vals _ =>
    by_cases h1 : vals.sum < mp
    · rw [if_pos h1] at hp
      by_cases h2 : action = "delete"
      · rw [if_pos h2] at hp
        by_cases h3 : (backup_measurement st m).1 = true
        · simp only [h3, if_true] at hp
          rw [List.mem_singleton] at hp
          rw [hp]
        · simp only [Bool.not_eq_true] at h3
          simp only [h3, Bool.false_eq_true, if_false] at hp
          rw [List.mem_singleton] at hp
          rw [hp]
      · rw [if_neg h2] at hp
        by_cases h4 : action = "backup_only"
        · rw [if_pos h4] at hp
          rw [List.mem_singleton] at hp
          rw [hp]
        · rw [if_neg h4] at hp
          simp at hp
    · rw [if_neg h1] at hp
      simp at hp

theorem dropAfterBackup_backup_then_drop (m : String) (c : Nat) :
    dropAfterBackup
      [Ev.countQuery m, Ev.queryAll m, Ev.backupWrite m c true, Ev.drop m] := by
  intro i m' hi
  rcases i with _ | _ | _ | _ | i
  · simp at hi
  · simp at hi
  · simp at hi
  · simp only [List.getElem?_cons_succ, List.getElem?_cons_zero, Option.some.injEq] at hi
    have hm : m = m' := by
      cases hi
      rfl
    refine ⟨2, c, by omega, ?_⟩
    rw [← hm]
    rfl
  · simp at hi

theorem cleanStep_dropAfterBackup (st : Store) (mp : Int) (action m : String) :
    dropAfterBackup (cleanLowDataStep st mp action m).2 := by
  by_cases h2 : action = "delete"
  · subst h2
    rw [cleanStep_delete_eq]
    rcases st.countVals m with _ | vals
    · exact dropAfterBackup_of_no_drop _ (by intro m'; simp)
    · by_cases h1 : vals.sum < mp
      · simp only [h1, if_true]
        by_cases hb : backupSuccess st m
        · simp only [hb, if_true]
          exact dropAfterBackup_backup_then_drop m (st.rows m).length
        · simp only [hb, Bool.false_eq_true, if_false]
          by_cases hq : st.queryOk m
          · simp only [hq, if_true]
            exact dropAfterBackup_of_no_drop _ (by intro m'; simp)
          · simp only [hq, Bool.false_eq_true, if_false]
            exact dropAfterBackup_of_no_drop _ (by intro m'; simp)
      · simp only [h1, if_false]
        exact dropAfterBackup_of_no_drop _ (by intro m'; simp)
  · by_cases h4 : action = "backup_only"
    · refine dropAfterBackup_of_no_drop _ (fun m' hmem => ?_)
      unfold cleanLowDataStep at hmem
      split at hmem
      case _ => simp at hmem
      case _ vals _ =>
        by_cases h1 : vals.sum < mp
        · rw [if_pos h1, if_neg h2, if_pos h4] at hmem
          unfold backup_measurement at hmem
          by_cases hq : st.queryOk m <;> simp [hq] at hmem
        · rw [if_neg h1] at hmem
          simp at hmem
    · rw [cleanStep_other_eq st mp action m h2 h4]
      exact dropAfterBackup_of_no_drop _ (by intro m'; simp)

theorem cleanStep_no_drop (st : Store) (mp : Int) (m m' : String)
    (hbf : backupSuccess st m = false) :
    Ev.drop m ∉ (cleanLowDataStep st mp "delete" m').2 := by
  rw [cleanStep_delete_eq]
  rcases st.countVals m' with _ | vals
  · simp
  · by_cases h1 : vals.sum < mp
    · simp only [h1, if_true]
      by_cases hb : backupSuccess st m'
      · simp only [hb, if_true]
        intro hmem
        have hmm : m = m' := by simpa using hmem
        rw [hmm] at hbf
        rw [hbf] at hb
        cases hb
      · simp only [hb, Bool.false_eq_true, if_false]
        by_cases hq : st.queryOk m' <;> simp [hq]
    · simp [h1]

theorem dropAfterBackup_flatMap (f : String → List Ev)
    (h : ∀ m, dropAfterBackup (f m)) :
    ∀ ms : List String, dropAfterBackup (ms.flatMap f) := by
  intro ms
  induction ms with
  | nil => exact dropAfterBackup_of_no_drop _ (by intro m; simp)
  | cons hd tl ih =>
    rw [List.flatMap_cons]
    exact dropAfterBackup_append (h hd) ih

theorem sumNumericValues_eq (row : Row) :
    sumNumericValues row = numericColumnsSum row := by
  induction row with
  | nil => rfl
  | cons kv tl ih =>
    obtain ⟨k, v⟩ := kv
    cases v with
    | num n => simp [sumNumericValues, numericColumnsSum, List.filterMap_cons, ih]
    | str s =>
      simp only [sumNumericValues]
      rw [ih]
      simp [numericColumnsSum, List.filterMap_cons]

theorem sumNumericValues_erase_str (pre post : Row) (k s : String) :
    sumNumericValues (pre ++ (k, Val.str s) :: post) = sumNumericValues (pre ++ post) := by
  induction pre with
  | nil => rfl
  | cons kv tl ih =>
    obtain ⟨k', v⟩ := kv
    cases v with
    | num n => simp [sumNumericValues, ih]
    | str s' => simp [sumNumericValues, ih]

theorem charOverlapCount_comm (c1 c2 : List Char) :
    charOverlapCount c1 c2 = charOverlapCount c2 c1 := by
  unfold charOverlapCount
  rw [Finset.inter_comm]

theorem filterBody_aggregate_eq (st : Store) (m : String) (hc : st.oldCount m ≠ 0) :
    filterCleanBody st "aggregate" m
      = ((aggregate_old_data st m (selectAggregation (st.oldCount m)) []).1,
         Ev.countQuery m ::
           (aggregate_old_data st m (selectAggregation (st.oldCount m)) []).2) := by
  unfold filterCleanBody
  rw [if_neg hc, if_pos rfl]

/-! The claim theorems. -/

/-- C4.  For every call to Delete with the confirmation flag absent
(`False`), `delete_measurement` refuses, returns a failure result, and
issues no store call at all; the drop command appears in the trace exactly
when the flag is set. -/
theorem c4_delete_requires_confirmation :
    (∀ (st : Store) (m : String), delete_measurement st m false = (false, []))
    ∧ (∀ (st : Store) (m : String) (confirm : Bool),
        (Ev.drop m ∈ (delete_measurement st m confirm).2) ↔ confirm = true) := by
  constructor
  · intro st m; rfl
  · intro st m confirm
    cases confirm <;> simp [delete_measurement]

/-- C5.  For every measurement, the `total_points` value computed by both
the thorough inventory (`analyze_measurement`) and the fast one
(`_get_basic_measurement_info`) equals the sum of exactly the
numeric-valued columns of the COUNT(*) result row, and a string-valued
column (such as the time identifier) inserted anywhere in the row
contributes nothing to the total. -/
theorem c5_total_points_numeric_sum (p : Row) (rest : List Row)
    (pre post : Row) (k s : String) :
    analyzeMeasurementTotalPoints (p :: rest) = numericColumnsSum p
    ∧ basicInfoTotalPoints (p :: rest) = numericColumnsSum p
    ∧ analyzeMeasurementTotalPoints ((pre ++ (k, Val.str s) :: post) :: rest)
        = analyzeMeasurementTotalPoints ((pre ++ post) :: rest)
    ∧ basicInfoTotalPoints ((pre ++ (k, Val.str s) :: post) :: rest)
        = basicInfoTotalPoints ((pre ++ post) :: rest) :=
  ⟨sumNumericValues_eq p, sumNumericValues_eq p,
   sumNumericValues_erase_str pre post k s, sumNumericValues_erase_str pre post k s⟩

/-- C2.  Whenever the count of aggregated points is zero,
`aggregate_old_data` returns failure and never issues the delete of the
original rows older than the cutoff, whatever made the count zero. -/
theorem c2_aggregate_empty_output_aborts (st : Store) (m aggregation : String)
    (fields : List String)
    (h : st.aggCount (m ++ "_agg_" ++ aggregation) = 0) :
    (aggregate_old_data st m aggregation fields).1 = false
    ∧ Ev.deleteOld m ∉ (aggregate_old_data st m aggregation fields).2 := by
  by_cases hq : st.queryOk m <;> by_cases hw : st.writeFileOk m <;>
    by_cases he : fields.isEmpty <;>
    by_cases hfk : (st.fieldKeys m).isEmpty <;>
    by_cases hl : (aggregationIntervals.lookup aggregation).isNone <;>
      simp [aggregate_old_data, backup_measurement, h, hq, hw, he, hfk, hl]

/-- C2 witness: a concrete store whose aggregation output is always
empty. -/
theorem c2_aggregate_empty_output_aborts_witness :
    wStore.aggCount ("m2" ++ "_agg_" ++ "daily") = 0
    ∧ (aggregate_old_data wStore "m2" "daily" ["f1"]).1 = false
    ∧ Ev.deleteOld "m2" ∉ (aggregate_old_data wStore "m2" "daily" ["f1"]).2 := by
  have h := c2_aggregate_empty_output_aborts wStore "m2" "daily" ["f1"] rfl
  exact ⟨rfl, h.1, h.2⟩

/-- C6.  The per-field reducer of aggregate-old-data is chosen purely from
the field name: SUM when the lower-cased name contains a count/total/sum
keyword, otherwise MAX for max/peak/highest, otherwise MIN for min/lowest,
otherwise MEAN; in particular `cpu_total_count` gets SUM, `cpu_temp_max`
gets MAX and `cpu_usage` gets MEAN. -/
theorem c6_reducer_selection (f : String) :
    (sumSelectKeywords.any (containsKeyword f) = true → fieldReducer f = "SUM")
    ∧ (sumSelectKeywords.any (containsKeyword f) = false →
        maxSelectKeywords.any (containsKeyword f) = true → fieldReducer f = "MAX")
    ∧ (sumSelectKeywords.any (containsKeyword f) = false →
        maxSelectKeywords.any (containsKeyword f) = false →
        minSelectKeywords.any (containsKeyword f) = true → fieldReducer f = "MIN")
    ∧ (sumSelectKeywords.any (containsKeyword f) = false →
        maxSelectKeywords.any (containsKeyword f) = false →
        minSelectKeywords.any (containsKeyword f) = false → fieldReducer f = "MEAN")
    ∧ fieldReducer "cpu_total_count" = "SUM"
    ∧ fieldReducer "cpu_temp_max" = "MAX"
    ∧ fieldReducer "cpu_usage" = "MEAN" := by
  refine ⟨?_, ?_, ?_, ?_, by decide, by decide, by decide⟩
  · intro h1; simp [fieldReducer, h1]
  · intro h1 h2; simp [fieldReducer, h1, h2]
  · intro h1 h2 h3; simp [fieldReducer, h1, h2, h3]
  · intro h1 h2 h3; simp [fieldReducer, h1, h2, h3]

/-- C6 witness: the reducer selection evaluated on a further concrete
field name through the guarded part of the theorem. -/
theorem c6_reducer_selection_witness : fieldReducer "room_temp_min" = "MIN" :=
  (c6_reducer_selection "room_temp_min").2.2.1 (by decide) (by decide) (by decide)

/-- C10.  Clean-low-data with an action other than `delete` or
`backup_only` performs no backup read, no backup write and no drop, and
returns an empty result map (so no below-threshold measurement gets an
entry): the unrecognized action is silently skipped per measurement. -/
theorem c10_clean_low_data_unknown_action (st : Store) (minPoints : Int)
    (action : String) (hd : action ≠ "delete") (hb : action ≠ "backup_only") :
    (clean_low_data_measurements st minPoints action).1 = []
    ∧ (∀ m, Ev.queryAll m ∉ (clean_low_data_measurements st minPoints action).2)
    ∧ (∀ m c ok, Ev.backupWrite m c ok ∉ (clean_low_data_measurements st minPoints action).2)
    ∧ (∀ m, Ev.drop m ∉ (clean_low_data_measurements st minPoints action).2) := by
  rw [clean_low_data_eq]
  have hstep : ∀ m, cleanLowDataStep st minPoints action m = ([], [Ev.countQuery m]) :=
    fun m => cleanStep_other_eq st minPoints action m hd hb
  refine ⟨by simp [hstep], ?_, ?_, ?_⟩
  · intro m hmem
    rcases List.mem_cons.mp hmem with h | h
    · simp at h
    · rcases List.mem_flatMap.mp h with ⟨m', _, hmm⟩
      rw [hstep m'] at hmm
      simp at hmm
  · intro m c ok hmem
    rcases List.mem_cons.mp hmem with h | h
    · simp at h
    · rcases List.mem_flatMap.mp h with ⟨m', _, hmm⟩
      rw [hstep m'] at hmm
      simp at hmm
  · intro m hmem
    rcases List.mem_cons.mp hmem with h | h
    · simp at h
    · rcases List.mem_flatMap.mp h with ⟨m', _, hmm⟩
      rw [hstep m'] at hmm
      simp at hmm

/-- C10 witness: the unknown action `archive` on a concrete store with a
below-threshold measurement yields an empty result map. -/
theorem c10_clean_low_data_unknown_action_witness :
    (clean_low_data_measurements wStore 10 "archive").1 = []
    ∧ Ev.drop "m1" ∉ (clean_low_data_measurements wStore 10 "archive").2 := by
  have h := c10_clean_low_data_unknown_action wStore 10 "archive" (by decide) (by decide)
  exact ⟨h.1, h.2.2.2 "m1"⟩

/-- C1.  In clean-low-data with action `delete`, for every measurement
whose point count is below the threshold a backup read is attempted
(whether or not the backup will succeed); if the backup fails, the drop of
that measurement is never issued and the measurement is recorded as
failed (`false`) in the result map; and unconditionally — in every run,
including those where backups succeed and drops are issued — every drop
in the trace is preceded, in program order, by a successful backup write
of the same measurement. -/
theorem c1_backup_before_delete (st : Store) (minPoints : Int) (m : String)
    (vals : List Int) (hm : m ∈ st.measurements) (hc : st.countVals m = some vals)
    (hlt : vals.sum < minPoints) :
    Ev.queryAll m ∈ (clean_low_data_measurements st minPoints "delete").2
    ∧ (backupSuccess st m = false →
        Ev.drop m ∉ (clean_low_data_measurements st minPoints "delete").2
        ∧ List.lookup m (clean_low_data_measurements st minPoints "delete").1 = some false)
    ∧ dropAfterBackup (clean_low_data_measurements st minPoints "delete").2 := by
  rw [clean_low_data_eq]
  refine ⟨?_, fun hbf => ⟨?_, ?_⟩, ?_⟩
  · apply List.mem_cons_of_mem
    apply List.mem_flatMap.mpr
    refine ⟨m, hm, ?_⟩
    rw [cleanStep_delete_eq]
    by_cases hb : backupSuccess st m
    · simp [hc, hlt, hb]
    · by_cases hq : st.queryOk m <;> simp [hc, hlt, hb, hq]
  · intro hmem
    rcases List.mem_cons.mp hmem with h | h
    · simp at h
    · rcases List.mem_flatMap.mp h with ⟨m', _, hmm⟩
      exact cleanStep_no_drop st minPoints m m' hbf hmm
  · apply lookup_flatMap_key _ (fun m' p hp => cleanStep_key st minPoints "delete" m' p hp)
      st.measurements m false hm
    rw [cleanStep_delete_eq]
    by_cases hq : st.queryOk m <;> simp [hc, hlt, hbf, hq]
  · rw [← List.singleton_append]
    refine dropAfterBackup_append (dropAfterBackup_of_no_drop _ (by intro m'; simp)) ?_
    exact dropAfterBackup_flatMap _ (cleanStep_dropAfterBackup st minPoints "delete")
      st.measurements

/-- C1 witness: in `wStore` the below-threshold measurement `m1` has a
failing backup, so no drop is issued for it and it is recorded as failed;
in `wStore2` its backup succeeds and the drop is actually issued, and the
happens-before ordering holds of that drop-containing trace. -/
theorem c1_backup_before_delete_witness :
    (Ev.queryAll "m1" ∈ (clean_low_data_measurements wStore 10 "delete").2
     ∧ Ev.drop "m1" ∉ (clean_low_data_measurements wStore 10 "delete").2
     ∧ List.lookup "m1" (clean_low_data_measurements wStore 10 "delete").1 = some false)
    ∧ (Ev.drop "m1" ∈ (clean_low_data_measurements wStore2 10 "delete").2
     ∧ dropAfterBackup (clean_low_data_measurements wStore2 10 "delete").2) := by
  have h1 := c1_backup_before_delete wStore 10 "m1" [3] (by decide) (by decide) (by decide)
  have h2 := c1_backup_before_delete wStore2 10 "m1" [3] (by decide) (by decide) (by decide)
  have hbf : backupSuccess wStore "m1" = false := by decide
  exact ⟨⟨h1.1, (h1.2.1 hbf).1, (h1.2.1 hbf).2⟩, ⟨by decide, h2.2.2⟩⟩

/-- C3 counterexample: a Merge call with a single source (fewer than two)
is not rejected — it issues a store query and reports success. -/
theorem c3_single_source_counterexample :
    (["a"] : List String).length < 2
    ∧ (merge_measurements wStore ["a"] "target" []).1 = true
    ∧ (merge_measurements wStore ["a"] "target" []).2 ≠ [] := by
  refine ⟨by decide, by decide, by decide⟩

/-- C3 amended.  Merge rejects exactly the empty source list before any
store call, reporting failure; a call with a single source is not
rejected: it queries that source (a store call), returns success when the
query succeeds and either the source has no rows (skipped, not a failure)
or the write of its batch succeeds, and returns failure when the write
raises. -/
theorem c3_empty_vs_single_source (st : Store) (target : String)
    (tagMapping : List (String × String)) :
    merge_measurements st [] target tagMapping = (false, [])
    ∧ (∀ source, st.queryOk source = true →
        Ev.queryAll source ∈ (merge_measurements st [source] target tagMapping).2
        ∧ ((st.rows source).isEmpty = true ∨ st.writePointsOk target source = true →
            (merge_measurements st [source] target tagMapping).1 = true)
        ∧ ((st.rows source).isEmpty = false → st.writePointsOk target source = false →
            (merge_measurements st [source] target tagMapping).1 = false)) := by
  constructor
  · rfl
  · intro source hq
    refine ⟨?_, ?_, ?_⟩
    · unfold merge_measurements mergeLoop
      by_cases hp : (st.rows source).isEmpty
      · simp [hq, hp]
      · by_cases hw : st.writePointsOk target source <;> simp [hq, hp, hw]
    · intro h
      unfold merge_measurements mergeLoop
      rcases h with hp | hw
      · simp [hq, hp, mergeLoop]
      · by_cases hp : (st.rows source).isEmpty <;> simp [hq, hp, hw, mergeLoop]
    · intro hp hw
      unfold merge_measurements mergeLoop
      simp [hq, hp, hw]

/-- C3 amended witness: one concrete single-source merge whose query and
write both succeed. -/
theorem c3_empty_vs_single_source_witness :
    Ev.queryAll "a" ∈ (merge_measurements wStore ["a"] "t" []).2
    ∧ (merge_measurements wStore ["a"] "t" []).1 = true := by
  have h := (c3_empty_vs_single_source wStore "t" []).2 "a" (by decide)
  exact ⟨h.1, h.2.1 (Or.inr (by decide))⟩

/-- C7.  Age-based batch clean with action `aggregate` records, for every
measurement with a non-zero old-row count, the outcome of delegating to
aggregate-old-data with the density-selected granularity, where the
selection follows the thresholds monthly above 50000, weekly above 10000,
daily above 1000, hourly otherwise; in particular 60000 old rows select
monthly and 5000 select daily. -/
theorem c7_age_based_granularity (st : Store) (ms : List String) (m : String)
    (hm : m ∈ ms) (hc : st.oldCount m ≠ 0) :
    List.lookup m (filter_and_clean_by_age st ms "aggregate").1
      = some (aggregate_old_data st m (selectAggregation (st.oldCount m)) []).1
    ∧ (st.oldCount m > 50000 → selectAggregation (st.oldCount m) = "monthly")
    ∧ (st.oldCount m ≤ 50000 → st.oldCount m > 10000 →
        selectAggregation (st.oldCount m) = "weekly")
    ∧ (st.oldCount m ≤ 10000 → st.oldCount m > 1000 →
        selectAggregation (st.oldCount m) = "daily")
    ∧ (st.oldCount m ≤ 1000 → selectAggregation (st.oldCount m) = "hourly")
    ∧ selectAggregation 60000 = "monthly"
    ∧ selectAggregation 5000 = "daily" := by
  refine ⟨?_, ?_, ?_, ?_, ?_, by decide, by decide⟩
  · rw [filter_and_clean_by_age_eq]
    apply lookup_flatMap_key _ (fun m' p hp => by
        rw [List.mem_singleton] at hp
        rw [hp]
        rfl) ms m _ hm
    simp [filterCleanStep, filterBody_aggregate_eq st m hc]
  · intro h1
    simp [selectAggregation, h1]
  · intro h1 h2
    unfold selectAggregation
    rw [if_neg (by omega), if_pos h2]
  · intro h1 h2
    unfold selectAggregation
    rw [if_neg (by omega), if_neg (by omega), if_pos h2]
  · intro h1
    unfold selectAggregation
    rw [if_neg (by omega), if_neg (by omega), if_neg (by omega)]

/-- C7 witness: 5000 old rows in the concrete store select daily and the
batch result records the delegated outcome. -/
theorem c7_age_based_granularity_witness :
    selectAggregation (wStore.oldCount "m1") = "daily"
    ∧ List.lookup "m1" (filter_and_clean_by_age wStore ["m1", "m2"] "aggregate").1
        = some (aggregate_old_data wStore "m1"
            (selectAggregation (wStore.oldCount "m1")) []).1 := by
  have h := c7_age_based_granularity wStore ["m1", "m2"] "m1" (by decide) (by decide)
  exact ⟨h.2.2.2.1 (by decide) (by decide), h.1⟩

/-- C8.  The name-similarity predicate is symmetric, and it returns
`false` whenever either name has length 3 or less after stripping
underscores and hyphens and lower-casing. -/
theorem c8_similarity_symmetric (a b : String) :
    measurements_similar a b = measurements_similar b a
    ∧ ((normalizeName a).length ≤ 3 ∨ (normalizeName b).length ≤ 3 →
        measurements_similar a b = false) := by
  constructor
  · by_cases h1 : (normalizeName a).length > 3 <;>
      by_cases h2 : (normalizeName b).length > 3
    · simp only [measurements_similar, h1, h2, decide_True, Bool.and_self, if_true]
      rw [charOverlapCount_comm (normalizeName a) (normalizeName b),
        Nat.max_comm (normalizeName a).length (normalizeName b).length]
      cases containsSub (normalizeName b) (normalizeName a) <;>
        cases containsSub (normalizeName a) (normalizeName b) <;> simp
    · simp [measurements_similar, h1, h2]
    · simp [measurements_similar, h1, h2]
    · simp [measurements_similar, h1, h2]
  · intro h
    rcases h with h | h
    · have h' : ¬(normalizeName a).length > 3 := by omega
      simp [measurements_similar, h']
    · have h' : ¬(normalizeName b).length > 3 := by omega
      simp [measurements_similar, h']

/-- C8 witness: a pair with a too-short normalized name is not
compared. -/
theorem c8_similarity_symmetric_witness :
    measurements_similar "a-b_" "wxyz" = false :=
  (c8_similarity_symmetric "a-b_" "wxyz").2 (Or.inl (by decide))

/-- C9 counterexample: on a total fetch failure for `m1` (every store
query against it raises), the fast inventory returns a partial analysis
whose last-entry sentinel is `No data`, not the `Error` failure value of
`_create_empty_analysis` that the claim states. -/
theorem c9_fetch_failure_counterexample :
    List.lookup "m1" (analyze_measurements_parallel wAnalyzerEnv ["m1", "m2"])
      = some { name := "m1", total_points := 0, time_range := none, fields := [],
               tags := [], sample_data := [], last_entry := "No data" }
    ∧ List.lookup "m1" (analyze_measurements_parallel wAnalyzerEnv ["m1", "m2"])
      ≠ some (create_empty_analysis "m1")
    ∧ (create_empty_analysis "m1").last_entry = "Error" := by
  refine ⟨by decide, by decide, rfl⟩

/-- C9 amended.  On a fetch failure for a single measurement, the fast
inventory catches the failure inside the analysis task and returns a
failure value for that measurement — on a total fetch failure: its name,
zero total points, no time range, empty field list, empty tag map, empty
sample data and the sentinel `No data` — instead of raising or aborting
the whole analysis pass; every other measurement keeps the analysis its
own queries produce, unaffected.  The `Error` sentinel of
`_create_empty_analysis` is installed by the collector only when an
analysis task itself raises, which a caught fetch failure does not
cause. -/
theorem c9_fetch_failure_no_data (env : AnalyzerEnv) (ms : List String)
    (m m' : String) (hm : m ∈ ms)
    (hcount : env.countOk m = false) (hsample : env.sampleOk m = false)
    (hm' : m' ∈ ms) :
    List.lookup m (analyze_measurements_parallel env ms)
      = some { name := m, total_points := 0, time_range := none, fields := [],
               tags := [], sample_data := [], last_entry := "No data" }
    ∧ List.lookup m' (analyze_measurements_parallel env ms)
      = some (analyze_measurement_fast env m')
    ∧ (create_empty_analysis m).last_entry = "Error" := by
  refine ⟨?_, ?_, rfl⟩
  · have hl := lookup_map_self (analyze_measurement_fast env) ms m hm
    unfold analyze_measurements_parallel
    rw [hl]
    unfold analyze_measurement_fast get_basic_measurement_info get_sample_data_fast
    simp [hcount, hsample]
  · have hl := lookup_map_self (analyze_measurement_fast env) ms m' hm'
    unfold analyze_measurements_parallel
    rw [hl]

/-- C9 amended witness: in the concrete environment, every query against
`m1` fails and it maps to the `No data` failure value, while `m2` keeps
the analysis its own queries produce. -/
theorem c9_fetch_failure_no_data_witness :
    List.lookup "m1" (analyze_measurements_parallel wAnalyzerEnv ["m1", "m2"])
      = some { name := "m1", total_points := 0, time_range := none, fields := [],
               tags := [], sample_data := [], last_entry := "No data" }
    ∧ List.lookup "m2" (analyze_measurements_parallel wAnalyzerEnv ["m1", "m2"])
      = some (analyze_measurement_fast wAnalyzerEnv "m2") := by
  have h := c9_fetch_failure_no_data wAnalyzerEnv ["m1", "m2"] "m1" "m2"
    (by decide) (by decide) (by decide) (by decide)
  exact ⟨h.1, h.2.1⟩

end InfluxCleaner
